import Mathlib

/-!
Verification of the HTTP handler layer of a small Solana helper service
(`src/main.rs`, `src/types.rs`).  Each handler is a pure function of its
typed request payload; randomness (fresh keypairs), the ed25519 signature
scheme and the associated-token-address derivation are modelled as explicit
parameters, since they are opaque external collaborators of the service.
Strings are modelled as lists of characters, public keys as their 32 raw
bytes, and the base58 codec used throughout the service is implemented
executably below.
-/

namespace SolSvc

/-- Strings are modelled as lists of characters. -/
abbrev Str := List Char

/-- A public key value is its list of 32 raw bytes. -/
abbrev PK := List Nat

/-- UTF-8 encoding of a single character (`str::as_bytes` in the source). -/
def utf8Bytes (c : Char) : List Nat :=
  let n := c.toNat
  if n < 128 then [n]
  else if n < 2048 then [192 + n / 64, 128 + n % 64]
  else if n < 65536 then [224 + n / 4096, 128 + n / 64 % 64, 128 + n % 64]
  else [240 + n / 262144, 128 + n / 4096 % 64, 128 + n / 64 % 64, 128 + n % 64]

/-- UTF-8 byte sequence of a string (`String::as_bytes` / `String::len`). -/
def strBytes (s : Str) : List Nat := (s.map utf8Bytes).flatten

/-- The bitcoin base58 alphabet used by the `bs58` crate. -/
def b58Alphabet : List Char :=
  "123456789ABCDEFGHJKLMNPQRSTUVWXYZabcdefghijkmnopqrstuvwxyz".data

/-- Digit value to base58 character. -/
def b58Char (d : Nat) : Char := b58Alphabet.getD d '1'

/-- Base58 character to digit value; `none` for characters outside the alphabet. -/
def b58Val (c : Char) : Option Nat :=
  if b58Alphabet.indexOf c < 58 then some (b58Alphabet.indexOf c) else none

/-- Map a character list to its base58 digit values, failing on a bad character. -/
def charVals : List Char → Option (List Nat)
  | [] => some []
  | c :: cs =>
    match b58Val c, charVals cs with
    | some v, some vs => some (v :: vs)
    | _, _ => none

/-- Number of leading zero entries of a list. -/
def countLeadZeros : List Nat → Nat
  | [] => 0
  | x :: xs => if x = 0 then countLeadZeros xs + 1 else 0

/-- Fuel-bounded base-`b` digit extraction (little-endian); agrees with
`Nat.digits` whenever `n < b ^ fuel` (proved below). -/
def natDigits (b : Nat) : Nat → Nat → List Nat
  | 0, _ => []
  | fuel + 1, n => if n = 0 then [] else n % b :: natDigits b fuel (n / b)

/-- base58 encoding of a byte list (`bs58::encode`): leading zero bytes map to
leading `'1'` characters, the remainder is the big-endian base58 numeral. -/
def encode58 (bs : List Nat) : Str :=
  List.replicate (countLeadZeros bs) '1' ++
    (natDigits 58 (2 * bs.length) (Nat.ofDigits 256 bs.reverse)).reverse.map b58Char

/-- base58 decoding of a string (`bs58::decode(..).into_vec()`): leading `'1'`
characters map to leading zero bytes, the remainder is read as a base58
numeral and written out in base 256 big-endian. -/
def decode58 (s : Str) : Option (List Nat) :=
  match charVals s with
  | none => none
  | some ds =>
    some (List.replicate (countLeadZeros ds) 0 ++
      (natDigits 256 ds.length (Nat.ofDigits 58 ds.reverse)).reverse)

/-- `Pubkey::from_str`: reject strings longer than 44 bytes, base58-decode,
and require exactly 32 decoded bytes. -/
def pubkeyFromStr (s : Str) : Option PK :=
  if 44 < (strBytes s).length then none
  else
    match decode58 s with
    | none => none
    | some bs => if bs.length = 32 then some bs else none

/-- One account slot of an instruction (`solana_sdk::instruction::AccountMeta`). -/
structure AccountMeta where
  pubkey : PK
  is_signer : Bool
  is_writable : Bool
  deriving DecidableEq

/-- An instruction as produced by the SDK builders
(`solana_sdk::instruction::Instruction`). -/
structure Instr where
  program_id : PK
  accounts : List AccountMeta
  data : List Nat
  deriving DecidableEq

/-- `spl_token::ID`, the token program address. -/
def tokenProgramIdStr : Str := "TokenkegQfeZyiNwAJbNbGKPFXCWuBvf9Ss623VQ5DA".data

/-- Raw bytes of the token program id. -/
def tokenProgramId : PK := (decode58 tokenProgramIdStr).getD []

/-- Raw bytes of the rent sysvar address used by `initialize_mint`. -/
def rentSysvarId : PK :=
  (decode58 ("SysvarRent111111111111111111111111111111111".data)).getD []

/-- The system program address (32 zero bytes). -/
def systemProgramId : PK := List.replicate 32 0

/-- Little-endian byte serialization on `k` bytes (`u64::to_le_bytes` etc.). -/
def leBytes : Nat → Nat → List Nat
  | 0, _ => []
  | k + 1, n => n % 256 :: leBytes k (n / 256)

/-- `spl_token::check_program_account`: the builders reject any program id
other than the token program's. -/
def check_program_account (token_program_id : PK) : Except Unit Unit :=
  if token_program_id = tokenProgramId then .ok () else .error ()

/-- `spl_token::instruction::initialize_mint`: accounts are the mint and the
rent sysvar; the payload is tag 0, the decimals byte, the mint authority and
the packed optional freeze authority. -/
def initialize_mint (token_program_id mint_pubkey mint_authority : PK)
    (freeze_authority : Option PK) (decimals : Nat) : Except Unit Instr :=
  match check_program_account token_program_id with
  | .error e => .error e
  | .ok _ =>
    .ok { program_id := token_program_id,
          accounts := [⟨mint_pubkey, false, true⟩, ⟨rentSysvarId, false, false⟩],
          data := 0 :: decimals :: (mint_authority ++
            (match freeze_authority with
             | some fa => 1 :: fa
             | none => [0])) }

/-- `spl_token::instruction::mint_to`: accounts are the mint, the destination
token account and the authority (signer when no multisig signers are given);
the payload is tag 7 followed by the little-endian amount. -/
def mint_to (token_program_id mint_pubkey account_pubkey owner_pubkey : PK)
    (signer_pubkeys : List PK) (amount : Nat) : Except Unit Instr :=
  match check_program_account token_program_id with
  | .error e => .error e
  | .ok _ =>
    .ok { program_id := token_program_id,
          accounts := [⟨mint_pubkey, false, true⟩, ⟨account_pubkey, false, true⟩,
              ⟨owner_pubkey, signer_pubkeys.isEmpty, false⟩] ++
            signer_pubkeys.map (fun s => ⟨s, true, false⟩),
          data := 7 :: leBytes 8 amount }

/-- `spl_token::instruction::transfer` (imported as `transfer_token`):
accounts are the source and destination token accounts and the owner; the
payload is tag 3 followed by the little-endian amount. -/
def transfer_token (token_program_id source_pubkey destination_pubkey owner_pubkey : PK)
    (signer_pubkeys : List PK) (amount : Nat) : Except Unit Instr :=
  match check_program_account token_program_id with
  | .error e => .error e
  | .ok _ =>
    .ok { program_id := token_program_id,
          accounts := [⟨source_pubkey, false, true⟩, ⟨destination_pubkey, false, true⟩,
              ⟨owner_pubkey, signer_pubkeys.isEmpty, false⟩] ++
            signer_pubkeys.map (fun s => ⟨s, true, false⟩),
          data := 3 :: leBytes 8 amount }

/-- `solana_sdk::system_instruction::transfer`: accounts are the funding
account (writable signer) and the recipient (writable); the payload is the
bincode encoding of `SystemInstruction::Transfer` (u32 variant tag 2, then
the little-endian lamports). -/
def transfer (from_pubkey to_pubkey : PK) (lamports : Nat) : Instr :=
  { program_id := systemProgramId,
    accounts := [⟨from_pubkey, true, true⟩, ⟨to_pubkey, false, true⟩],
    data := leBytes 4 2 ++ leBytes 8 lamports }

/-- Request payload of POST /token/create (`types.rs`). -/
structure CreateTokenRequest where
  mintAuthority : Option Str
  mint : Option Str
  decimals : Nat
  deriving DecidableEq

/-- Request payload of POST /token/mint (`types.rs`). -/
structure TokenMintRequest where
  mint : Option Str
  destination : Option Str
  authority : Option Str
  amount : Option Nat
  deriving DecidableEq

/-- Request payload of POST /message/sign (`types.rs`). -/
structure SignMsgRequest where
  message : Str
  secret : Str
  deriving DecidableEq

/-- Request payload of POST /message/verify (`types.rs`). -/
structure VerifyMsgRequest where
  message : Str
  signature : Str
  pubkey : Str
  deriving DecidableEq

/-- Request payload of POST /send/sol (`types.rs`). -/
structure SendSOLRequest where
  from_ : Str
  to_ : Str
  lamports : Nat
  deriving DecidableEq

/-- Request payload of POST /send/token (`types.rs`). -/
structure SendTokenRequest where
  destination : Option Str
  mint : Option Str
  owner : Option Str
  amount : Option Nat
  deriving DecidableEq

/-- One serialized account entry of the token endpoints (`AccountMetaResponse`). -/
structure AccountMetaResponse where
  pubkey : Str
  is_signer : Bool
  is_writable : Bool
  deriving DecidableEq

/-- One serialized account entry of POST /send/token (`TokenAccount` — note:
it carries no writability flag). -/
structure TokenAccount where
  pubkey : Str
  isSigner : Bool
  deriving DecidableEq

/-- The `data` object of a success response, one shape per endpoint. -/
inductive DataVal where
  | keypair (pubkey secret : Str)
  | token (program_id : Str) (accounts : List AccountMetaResponse) (instruction_data : Str)
  | signResult (signature pubkey message : Str)
  | verifyResult (valid : Bool) (pubkey message : Str)
  | solData (program_id : Str) (accounts : List Str) (instruction_data : Str)
  | sendTokenData (program_id : Str) (accounts : List TokenAccount) (instruction_data : Str)
  deriving DecidableEq

/-- The uniform JSON response envelope `{success, data?, error?}`. -/
structure Envelope where
  success : Bool
  data : Option DataVal
  error : Option Str
  deriving DecidableEq

/-- The error shape every handler serializes: `{success: false, error: msg}`. -/
def errEnv (msg : Str) : Envelope := ⟨false, none, some msg⟩

/-- The success shape every handler serializes: `{success: true, data: d}`. -/
def okEnv (d : DataVal) : Envelope := ⟨true, some d, none⟩

/-- Result of a handler that may terminate in an unhandled panic instead of
producing a response (only `verify_msg` contains such a path). -/
inductive HResult where
  | ok (status : Nat) (body : Envelope)
  | fault
  deriving DecidableEq

def msgFailedKeypair : Str := "Failed to generate keypair".data
def msgMissingCreate : Str := "Missing required fields: mintAuthority or mint".data
def msgInvalidMint : Str := "Invalid mint public key format".data
def msgInvalidMintAuthority : Str := "Invalid mint authority public key format".data
def msgFailedMintIx : Str := "Failed to create mint instruction".data
def msgMissingMint : Str :=
  "Missing required fields: mint, destination, authority, or amount".data
def msgInvalidDestination : Str := "Invalid destination public key format".data
def msgInvalidAuthority : Str := "Invalid authority public key format".data
def msgMissingFields : Str := "Missing required fields".data
def msgInvalidSecret : Str := "Invalid secret key format".data
def msgFailedSeed : Str := "Failed to create keypair from seed".data
def msgInvalidSignatureFormat : Str := "Invalid signature format".data
def msgSig64 : Str := "Signature must be 64 bytes long".data
def msgInvalidSignature : Str := "Invalid signature".data
def msgAmountGt0 : Str := "Amount must be greater than 0".data
def msgInvalidSender : Str := "Invalid sender public key".data
def msgInvalidTo : Str := "Invalid to public key format".data
def msgMissingSendToken : Str :=
  "Missing required fields: destination, mint, owner, or amount".data
def msgInvalidOwner : Str := "Invalid owner public key format".data
def msgFailedTransferIx : Str := "Failed to create transfer instruction: ".data

/-- The opaque ed25519 collaborator: signing, public-key derivation from a
32-byte seed, and verification. -/
structure SigScheme where
  sign : List Nat → List Nat → List Nat
  pub : List Nat → List Nat
  verify : List Nat → List Nat → List Nat → Bool

/-- `solana_keypair::keypair_from_seed`: fails when fewer than 32 bytes are
supplied, otherwise derives the keypair from the first 32 bytes. -/
def keypair_from_seed (bytes : List Nat) : Option (List Nat) :=
  if bytes.length < 32 then none else some (bytes.take 32)

/-- Handler of POST /keypair; the freshly drawn keypair (public key bytes and
full 64 keypair bytes) is passed in as the handler's source of randomness. -/
def generate_keypair (pub_key : PK) (keypair_bytes : List Nat) : Nat × Envelope :=
  let secret_key := encode58 keypair_bytes
  if secret_key = [] then (500, errEnv msgFailedKeypair)
  else (200, okEnv (.keypair (encode58 pub_key) secret_key))

/-- Handler of POST /token/create, parameterized over the instruction builder
it delegates to (`initialize_mint` in the source). -/
def token_createWith (build : PK → PK → PK → Option PK → Nat → Except Unit Instr)
    (payload : CreateTokenRequest) : Nat × Envelope :=
  if payload.mintAuthority = none ∨ payload.mint = none then
    (400, errEnv msgMissingCreate)
  else
    let mintAuthority := payload.mintAuthority.getD []
    let mint := payload.mint.getD []
    match pubkeyFromStr mint with
    | none => (400, errEnv msgInvalidMint)
    | some mint_pubkey =>
      match pubkeyFromStr mintAuthority with
      | none => (400, errEnv msgInvalidMintAuthority)
      | some mint_authority_pubkey =>
        match build tokenProgramId mint_pubkey mint_authority_pubkey
            (some mint_authority_pubkey) payload.decimals with
        | .ok ix =>
          (200, okEnv (.token (encode58 ix.program_id)
            (ix.accounts.map fun a => ⟨encode58 a.pubkey, a.is_signer, a.is_writable⟩)
            (encode58 ix.data)))
        | .error _ => (400, errEnv msgFailedMintIx)

/-- Handler of POST /token/create with the concrete SDK builder. -/
def token_create : CreateTokenRequest → Nat × Envelope :=
  token_createWith initialize_mint

/-- Handler of POST /token/mint, parameterized over the instruction builder
(`mint_to` in the source) and over `get_associated_token_address`. -/
def token_mintWith (build : PK → PK → PK → PK → List PK → Nat → Except Unit Instr)
    (ata : PK → PK → PK) (payload : TokenMintRequest) : Nat × Envelope :=
  if payload.mint = none ∨ payload.destination = none ∨ payload.authority = none ∨
      payload.amount = none then
    (400, errEnv msgMissingMint)
  else
    let mint := payload.mint.getD []
    let destination := payload.destination.getD []
    let authority := payload.authority.getD []
    let amount := payload.amount.getD 0
    match pubkeyFromStr mint with
    | none => (400, errEnv msgInvalidMint)
    | some mint_pubkey =>
      match pubkeyFromStr destination with
      | none => (400, errEnv msgInvalidDestination)
      | some destination_pubkey =>
        match pubkeyFromStr authority with
        | none => (400, errEnv msgInvalidAuthority)
        | some authority_pubkey =>
          let associated_token_account := ata destination_pubkey mint_pubkey
          match build tokenProgramId mint_pubkey associated_token_account
              authority_pubkey [] amount with
          | .ok ix =>
            (200, okEnv (.token (encode58 tokenProgramId)
              (ix.accounts.map fun a => ⟨encode58 a.pubkey, a.is_signer, a.is_writable⟩)
              (encode58 ix.data)))
          | .error _ => (200, errEnv msgFailedMintIx)

/-- Handler of POST /token/mint with the concrete SDK builder. -/
def token_mint (ata : PK → PK → PK) : TokenMintRequest → Nat × Envelope :=
  token_mintWith mint_to ata

/-- Handler of POST /message/sign, parameterized over the signature scheme. -/
def sign_msg (S : SigScheme) (payload : SignMsgRequest) : Nat × Envelope :=
  if payload.message = [] ∨ payload.secret = [] then (400, errEnv msgMissingFields)
  else
    match decode58 payload.secret with
    | none => (400, errEnv msgInvalidSecret)
    | some secret_bytes =>
      match keypair_from_seed secret_bytes with
      | none => (400, errEnv msgFailedSeed)
      | some seed =>
        let signature := S.sign seed (strBytes payload.message)
        (200, okEnv (.signResult (encode58 signature) (encode58 (S.pub seed))
          payload.message))

/-- Handler of POST /message/verify, parameterized over the signature scheme.
The source calls `Pubkey::from_str(&pubkey).unwrap()`, so a malformed pubkey
terminates the handler in an unhandled panic, modelled as `.fault`. -/
def verify_msg (S : SigScheme) (payload : VerifyMsgRequest) : HResult :=
  if payload.message = [] ∨ payload.signature = [] ∨ payload.pubkey = [] then
    .ok 400 (errEnv msgMissingFields)
  else
    match pubkeyFromStr payload.pubkey with
    | none => .fault
    | some public_key =>
      match decode58 payload.signature with
      | none => .ok 400 (errEnv msgInvalidSignatureFormat)
      | some signature_bytes =>
        if signature_bytes.length ≠ 64 then .ok 400 (errEnv msgSig64)
        else
          let is_valid_signature :=
            S.verify public_key (strBytes payload.message) signature_bytes
          if !is_valid_signature then .ok 400 (errEnv msgInvalidSignature)
          else .ok 200 (okEnv (.verifyResult is_valid_signature payload.pubkey
            payload.message))

/-- Handler of POST /send/sol. -/
def send_sol (payload : SendSOLRequest) : Nat × Envelope :=
  if payload.lamports = 0 then (400, errEnv msgAmountGt0)
  else
    match pubkeyFromStr payload.from_ with
    | none => (400, errEnv msgInvalidSender)
    | some from_pubkey =>
      match pubkeyFromStr payload.to_ with
      | none => (400, errEnv msgInvalidTo)
      | some to_pubkey =>
        let transfer_ix := transfer from_pubkey to_pubkey payload.lamports
        (200, okEnv (.solData (encode58 transfer_ix.program_id)
          [encode58 (transfer_ix.accounts.getD 0 ⟨[], false, false⟩).pubkey,
           encode58 (transfer_ix.accounts.getD 1 ⟨[], false, false⟩).pubkey]
          (encode58 transfer_ix.data)))

/-- Handler of POST /send/token, parameterized over the instruction builder
(`transfer_token` in the source) and over `get_associated_token_address`.
On success its response carries a hand-built three-entry account list, not
the instruction's account list. -/
def send_tokenWith (build : PK → PK → PK → PK → List PK → Nat → Except Unit Instr)
    (ata : PK → PK → PK) (payload : SendTokenRequest) : Nat × Envelope :=
  if payload.destination = none ∨ payload.mint = none ∨ payload.owner = none ∨
      payload.amount = none then
    (400, errEnv msgMissingSendToken)
  else
    let destination := payload.destination.getD []
    let mint := payload.mint.getD []
    let owner := payload.owner.getD []
    let amount := payload.amount.getD 0
    match pubkeyFromStr destination with
    | none => (400, errEnv msgInvalidDestination)
    | some destination_pubkey =>
      match pubkeyFromStr mint with
      | none => (400, errEnv msgInvalidMint)
      | some mint_pubkey =>
        match pubkeyFromStr owner with
        | none => (400, errEnv msgInvalidOwner)
        | some owner_pubkey =>
          let destination_token_account := ata destination_pubkey mint_pubkey
          let sender_token_account := ata owner_pubkey mint_pubkey
          match build tokenProgramId sender_token_account destination_token_account
              owner_pubkey [] amount with
          | .ok ix =>
            (200, okEnv (.sendTokenData (encode58 ix.program_id)
              [⟨encode58 owner_pubkey, false⟩,
               ⟨encode58 destination_token_account, false⟩,
               ⟨encode58 owner_pubkey, false⟩]
              (encode58 ix.data)))
          | .error _ => (400, errEnv msgFailedTransferIx)

/-- Handler of POST /send/token with the concrete SDK builder. -/
def send_token (ata : PK → PK → PK) : SendTokenRequest → Nat × Envelope :=
  send_tokenWith transfer_token ata

/-! ### Properties of the base58 codec -/

theorem natDigits_zero (b fuel : Nat) : natDigits b fuel 0 = [] := by
  cases fuel <;> simp [natDigits]

theorem natDigits_eq_digits {b : Nat} (hb : 2 ≤ b) :
    ∀ fuel n, n < b ^ fuel → natDigits b fuel n = Nat.digits b n := by
  intro fuel
  induction fuel with
  | zero =>
    intro n hn
    simp only [pow_zero, Nat.lt_one_iff] at hn
    subst hn
    simp [natDigits]
  | succ f ih =>
    intro n hn
    by_cases h0 : n = 0
    · subst h0
      simp [natDigits]
    · have hb1 : 1 < b := by omega
      have hdiv : n / b < b ^ f := by
        have hbpos : 0 < b := by omega
        refine (Nat.div_lt_iff_lt_mul hbpos).mpr ?_
        calc n < b ^ (f + 1) := hn
          _ = b ^ f * b := by rw [pow_succ]
      simp only [natDigits, if_neg h0]
      rw [Nat.digits_def' hb1 (Nat.pos_of_ne_zero h0), ih _ hdiv]

theorem clz_le_length : ∀ l : List Nat, countLeadZeros l ≤ l.length
  | [] => by simp [countLeadZeros]
  | x :: xs => by
    by_cases h : x = 0
    · simpa [countLeadZeros, h] using clz_le_length xs
    · simp [countLeadZeros, h]

theorem clz_spec : ∀ l : List Nat,
    l = List.replicate (countLeadZeros l) 0 ++ l.drop (countLeadZeros l)
  | [] => by simp [countLeadZeros]
  | x :: xs => by
    by_cases h : x = 0
    · subst h
      simpa [countLeadZeros, List.replicate_succ] using clz_spec xs
    · simp [countLeadZeros, h]

theorem clz_drop : ∀ l : List Nat,
    l.drop (countLeadZeros l) = [] ∨
      ∃ y ys, l.drop (countLeadZeros l) = y :: ys ∧ y ≠ 0
  | [] => by simp [countLeadZeros]
  | x :: xs => by
    by_cases h : x = 0
    · subst h
      simpa [countLeadZeros] using clz_drop xs
    · exact Or.inr ⟨x, xs, by simp [countLeadZeros, h], h⟩

theorem clz_replicate_append (z : Nat) (l : List Nat) :
    countLeadZeros (List.replicate z 0 ++ l) = z + countLeadZeros l := by
  induction z with
  | zero => simp
  | succ k ih => simp [List.replicate_succ, countLeadZeros, ih]; omega

theorem clz_cons_ne {y : Nat} (ys : List Nat) (h : y ≠ 0) :
    countLeadZeros (y :: ys) = 0 := by
  simp [countLeadZeros, h]

theorem ofDigits_replicate_zero (b z : Nat) :
    Nat.ofDigits b (List.replicate z 0) = 0 := by
  induction z with
  | zero => simp [Nat.ofDigits]
  | succ k ih => simp [List.replicate_succ, Nat.ofDigits_cons, ih]

theorem ofDigits_concat_ne_zero {b : Nat} (hb : 1 ≤ b) (l : List Nat) {y : Nat}
    (hy : y ≠ 0) : Nat.ofDigits b (l ++ [y]) ≠ 0 := by
  rw [Nat.ofDigits_append]
  have h1 : Nat.ofDigits b [y] = y := by simp [Nat.ofDigits]
  have h2 : 0 < b ^ l.length := Nat.pos_pow_of_pos _ (by omega)
  have h3 : 0 < b ^ l.length * Nat.ofDigits b [y] := by
    rw [h1]; exact Nat.mul_pos h2 (Nat.pos_of_ne_zero hy)
  omega

theorem b58Val_b58Char : ∀ d, d < 58 → b58Val (b58Char d) = some d := by decide

theorem charVals_replicate_one (z : Nat) :
    charVals (List.replicate z '1') = some (List.replicate z 0) := by
  induction z with
  | zero => simp [charVals]
  | succ k ih =>
    have h1 : b58Val '1' = some 0 := by decide
    simp [List.replicate_succ, charVals, h1, ih]

theorem charVals_map_b58Char : ∀ {ds : List Nat}, (∀ d ∈ ds, d < 58) →
    charVals (ds.map b58Char) = some ds
  | [], _ => by simp [charVals]
  | d :: ds, h => by
    have h1 : b58Val (b58Char d) = some d := b58Val_b58Char d (h d (by simp))
    have h2 : charVals (ds.map b58Char) = some ds :=
      charVals_map_b58Char (fun x hx => h x (by simp [hx]))
    simp [charVals, h1, h2]

theorem charVals_append_some {l₁ l₂ : List Char} {v₁ v₂ : List Nat}
    (h₁ : charVals l₁ = some v₁) (h₂ : charVals l₂ = some v₂) :
    charVals (l₁ ++ l₂) = some (v₁ ++ v₂) := by
  induction l₁ generalizing v₁ with
  | nil =>
    simp [charVals] at h₁
    simp [h₁, h₂]
  | cons c cs ih =>
    simp only [charVals] at h₁
    match hc : b58Val c, hcs : charVals cs with
    | some v, some vs =>
      rw [hc, hcs] at h₁
      simp only [Option.some.injEq] at h₁
      subst h₁
      simp [charVals, hc, ih hcs, h₂]
    | some v, none => rw [hc, hcs] at h₁; simp at h₁
    | none, _ => rw [hc] at h₁; simp at h₁

theorem decode58_encode58_core (z : Nat) (rest : List Nat)
    (hr : ∀ x ∈ rest, x < 256)
    (hhead : rest = [] ∨ ∃ y ys, rest = y :: ys ∧ y ≠ 0) :
    decode58 (encode58 (List.replicate z 0 ++ rest)) =
      some (List.replicate z 0 ++ rest) := by
  rcases hhead with hnil | ⟨y, ys, hcons, hy⟩
  · subst hnil
    rw [List.append_nil]
    have hclz : countLeadZeros (List.replicate z 0) = z := by
      simpa using clz_replicate_append z []
    have henc : encode58 (List.replicate z 0) = List.replicate z '1' := by
      simp [encode58, hclz, ofDigits_replicate_zero, natDigits_zero]
    rw [henc]
    simp [decode58, charVals_replicate_one, hclz, ofDigits_replicate_zero,
      natDigits_zero]
  · -- the bytes after the leading zeros start with a nonzero byte
    set n := Nat.ofDigits 256 rest.reverse with hn
    have hn0 : n ≠ 0 := by
      rw [hn, hcons]
      have hrev : (y :: ys).reverse = ys.reverse ++ [y] := by simp
      rw [hrev]
      exact ofDigits_concat_ne_zero (by norm_num) _ hy
    have hrlen : n < 256 ^ rest.length := by
      have := Nat.ofDigits_lt_base_pow_length (b := 256) (l := rest.reverse)
        (by norm_num) (fun x hx => hr x (List.mem_reverse.mp hx))
      simpa using this
    set bs := List.replicate z 0 ++ rest with hbs
    have hlenle : rest.length ≤ bs.length := by simp [hbs]
    have hfuel : n < 58 ^ (2 * bs.length) := by
      calc n < 256 ^ rest.length := hrlen
        _ ≤ 256 ^ bs.length := Nat.pow_le_pow_right (by norm_num) hlenle
        _ ≤ (58 ^ 2) ^ bs.length := Nat.pow_le_pow_left (by norm_num) _
        _ = 58 ^ (2 * bs.length) := by rw [← pow_mul, mul_comm]
    have hclz : countLeadZeros bs = z := by
      rw [hbs, clz_replicate_append, hcons, clz_cons_ne _ hy]
      omega
    have hofbs : Nat.ofDigits 256 bs.reverse = n := by
      rw [hbs, List.reverse_append, List.reverse_replicate, Nat.ofDigits_append,
        ofDigits_replicate_zero, hn]
      simp
    have henc : encode58 bs =
        List.replicate z '1' ++ (Nat.digits 58 n).reverse.map b58Char := by
      rw [encode58, hclz, hofbs, natDigits_eq_digits (by norm_num) _ _ hfuel]
    set D := Nat.digits 58 n with hD
    have hD58 : ∀ d ∈ D, d < 58 := fun d hd => Nat.digits_lt_base (by norm_num) hd
    have hDne : D ≠ [] := Nat.digits_ne_nil_iff_ne_zero.mpr hn0
    obtain ⟨E, d₀, hE⟩ : ∃ E d₀, D = E ++ [d₀] := by
      rcases List.eq_nil_or_concat D with h | ⟨L, b, hLb⟩
      · exact absurd h hDne
      · exact ⟨L, b, by simpa [List.concat_eq_append] using hLb⟩
    have hd₀ : d₀ ≠ 0 := by
      have h1 : D.getLast? = some d₀ := by rw [hE]; simp
      have h2 : D.getLast? = some (D.getLast hDne) := List.getLast?_eq_getLast D hDne
      have h3 : D.getLast hDne = d₀ := by
        rw [h1] at h2
        exact (Option.some.injEq _ _ ▸ h2).symm
      rw [← h3]
      exact Nat.getLast_digit_ne_zero 58 hn0
    have hDrev : D.reverse = d₀ :: E.reverse := by rw [hE]; simp
    have hvals : charVals (encode58 bs) = some (List.replicate z 0 ++ D.reverse) := by
      rw [henc]
      exact charVals_append_some (charVals_replicate_one z)
        (charVals_map_b58Char (fun d hd => hD58 d (List.mem_reverse.mp hd)))
    have hclzds : countLeadZeros (List.replicate z 0 ++ D.reverse) = z := by
      rw [clz_replicate_append, hDrev, clz_cons_ne _ hd₀]
      omega
    have hofds : Nat.ofDigits 58 (List.replicate z 0 ++ D.reverse).reverse = n := by
      rw [List.reverse_append, List.reverse_replicate, List.reverse_reverse,
        Nat.ofDigits_append, ofDigits_replicate_zero, hD, Nat.ofDigits_digits]
      simp
    have hdsfuel : n < 256 ^ (List.replicate z 0 ++ D.reverse).length := by
      have hlen2 : (List.replicate z 0 ++ D.reverse).length = z + D.length := by simp
      have h1 : n < 58 ^ D.length := by
        rw [hD]
        exact Nat.lt_base_pow_length_digits (by norm_num)
      have h2 : (58 : Nat) ^ D.length ≤ 256 ^ D.length :=
        Nat.pow_le_pow_left (by norm_num) _
      have h3 : (256 : Nat) ^ D.length ≤ 256 ^ (z + D.length) :=
        Nat.pow_le_pow_right (by norm_num) (by omega)
      rw [hlen2]
      omega
    have hdig : Nat.digits 256 n = rest.reverse := by
      rw [hn]
      refine Nat.digits_ofDigits 256 (by norm_num) rest.reverse
        (fun x hx => hr x (List.mem_reverse.mp hx)) ?_
      intro hne
      have h1 : rest.reverse.getLast? = some y := by rw [hcons]; simp
      have h2 : rest.reverse.getLast? = some (rest.reverse.getLast hne) :=
        List.getLast?_eq_getLast _ hne
      rw [h2] at h1
      have h3 : rest.reverse.getLast hne = y := Option.some.injEq _ _ ▸ h1
      rwa [h3]
    simp only [decode58, hvals, hclzds, hofds]
    rw [natDigits_eq_digits (by norm_num) _ _ hdsfuel, hdig]
    simp [hbs]

theorem decode58_encode58 {bs : List Nat} (h : ∀ x ∈ bs, x < 256) :
    decode58 (encode58 bs) = some bs := by
  have h1 := clz_spec bs
  rw [h1]
  exact decode58_encode58_core _ _
    (fun x hx => h x (List.mem_of_mem_drop hx)) (clz_drop bs)

theorem decode58_nil : decode58 [] = some [] := rfl

theorem encode58_ne_nil {bs : List Nat} (h : ∀ x ∈ bs, x < 256) (hne : bs ≠ []) :
    encode58 bs ≠ [] := by
  intro hc
  have h2 := decode58_encode58 h
  rw [hc, decode58_nil] at h2
  have h3 : ([] : List Nat) = bs := by injection h2
  exact hne h3.symm

theorem b58Char_ascii (d : Nat) : (b58Char d).toNat < 128 := by
  by_cases h : d < 58
  · exact (by decide : ∀ x, x < 58 → (b58Char x).toNat < 128) d h
  · rw [b58Char, List.getD_eq_default]
    · decide
    · have hlen : b58Alphabet.length = 58 := by decide
      omega

theorem encode58_ascii {bs : List Nat} : ∀ c ∈ encode58 bs, c.toNat < 128 := by
  intro c hc
  rw [encode58] at hc
  rcases List.mem_append.mp hc with h | h
  · have hc1 : c = '1' := List.eq_of_mem_replicate h
    subst hc1
    decide
  · obtain ⟨d, _, rfl⟩ := List.mem_map.mp h
    exact b58Char_ascii d

theorem strBytes_length_ascii : ∀ {s : Str}, (∀ c ∈ s, c.toNat < 128) →
    (strBytes s).length = s.length
  | [], _ => rfl
  | c :: cs, h => by
    have h1 : utf8Bytes c = [c.toNat] := by
      rw [utf8Bytes]
      simp [h c (by simp)]
    have h2 := strBytes_length_ascii (s := cs) (fun x hx => h x (by simp [hx]))
    have h3 : strBytes (c :: cs) = utf8Bytes c ++ strBytes cs := by
      simp [strBytes]
    rw [h3, List.length_append, h1, h2, List.length_cons]
    simp
    omega

theorem pow_58_bound {z : Nat} (hz : z ≤ 32) : (256 : Nat) ^ (32 - z) ≤ 58 ^ (44 - z) := by
  have h0 : (256 : Nat) ^ 32 ≤ 58 ^ 44 := by norm_num
  have h1 : (58 : Nat) ^ z ≤ 256 ^ z := Nat.pow_le_pow_left (by norm_num) _
  have e1 : (256 : Nat) ^ (32 - z) * 256 ^ z = 256 ^ 32 := by
    rw [← pow_add]
    congr 1
    omega
  have e2 : (58 : Nat) ^ (44 - z) * 58 ^ z = 58 ^ 44 := by
    rw [← pow_add]
    congr 1
    omega
  have h2 : (256 : Nat) ^ (32 - z) * 256 ^ z ≤ 58 ^ (44 - z) * 256 ^ z := by
    calc (256 : Nat) ^ (32 - z) * 256 ^ z = 256 ^ 32 := e1
      _ ≤ 58 ^ 44 := h0
      _ = 58 ^ (44 - z) * 58 ^ z := e2.symm
      _ ≤ 58 ^ (44 - z) * 256 ^ z := mul_le_mul_left' h1 _
  exact Nat.le_of_mul_le_mul_right h2 (Nat.pos_pow_of_pos _ (by norm_num))

theorem ofDigits_clz_drop (b : Nat) (bs : List Nat) :
    Nat.ofDigits b bs.reverse = Nat.ofDigits b (bs.drop (countLeadZeros bs)).reverse := by
  conv_lhs => rw [clz_spec bs]
  rw [List.reverse_append, List.reverse_replicate, Nat.ofDigits_append,
    ofDigits_replicate_zero]
  simp

theorem encode58_length_le_44 {bs : List Nat} (h : ∀ x ∈ bs, x < 256)
    (hlen : bs.length = 32) : (encode58 bs).length ≤ 44 := by
  have hzle : countLeadZeros bs ≤ 32 := hlen ▸ clz_le_length bs
  have hrl : (bs.drop (countLeadZeros bs)).length = 32 - countLeadZeros bs := by
    rw [List.length_drop, hlen]
  have hnlt : Nat.ofDigits 256 bs.reverse < 58 ^ (44 - countLeadZeros bs) := by
    rw [ofDigits_clz_drop]
    have h1 : Nat.ofDigits 256 (bs.drop (countLeadZeros bs)).reverse <
        256 ^ (32 - countLeadZeros bs) := by
      have h2 := Nat.ofDigits_lt_base_pow_length (b := 256)
        (l := (bs.drop (countLeadZeros bs)).reverse) (by norm_num)
        (fun x hx => h x (List.mem_of_mem_drop (List.mem_reverse.mp hx)))
      simpa [hrl] using h2
    exact lt_of_lt_of_le h1 (pow_58_bound hzle)
  have hfuel : Nat.ofDigits 256 bs.reverse < 58 ^ (2 * bs.length) := by
    have h1 : Nat.ofDigits 256 bs.reverse < 256 ^ bs.length := by
      have h2 := Nat.ofDigits_lt_base_pow_length (b := 256) (l := bs.reverse)
        (by norm_num) (fun x hx => h x (List.mem_reverse.mp hx))
      simpa using h2
    calc Nat.ofDigits 256 bs.reverse < 256 ^ bs.length := h1
      _ ≤ (58 ^ 2) ^ bs.length := Nat.pow_le_pow_left (by norm_num) _
      _ = 58 ^ (2 * bs.length) := by rw [← pow_mul, mul_comm]
  rw [encode58, natDigits_eq_digits (by norm_num) _ _ hfuel, List.length_append,
    List.length_replicate, List.length_map, List.length_reverse]
  have hdlen : (Nat.digits 58 (Nat.ofDigits 256 bs.reverse)).length ≤
      44 - countLeadZeros bs := by
    by_cases h0 : Nat.ofDigits 256 bs.reverse = 0
    · rw [h0]
      simp
    · rw [Nat.digits_len _ _ (by norm_num) h0]
      have h3 := Nat.log_lt_of_lt_pow h0 hnlt
      omega
  omega

theorem pubkeyFromStr_encode58 {bs : List Nat} (h : ∀ x ∈ bs, x < 256)
    (hlen : bs.length = 32) : pubkeyFromStr (encode58 bs) = some bs := by
  have hblen : (strBytes (encode58 bs)).length = (encode58 bs).length :=
    strBytes_length_ascii encode58_ascii
  have hnotlong : ¬ 44 < (strBytes (encode58 bs)).length := by
    rw [hblen]
    exact not_lt.mpr (encode58_length_le_44 h hlen)
  rw [pubkeyFromStr, if_neg hnotlong, decode58_encode58 h]
  simp [hlen]

theorem pubkeyFromStr_nil : pubkeyFromStr [] = none := rfl

/-! ### Shared concrete objects used for witnesses and counterexamples -/

/-- 32 zero bytes (a valid public key value). -/
def pkZ : PK := List.replicate 32 0

/-- 31 zero bytes followed by one; a valid public key value distinct from `pkZ`. -/
def pkOne : PK := List.replicate 31 0 ++ [1]

/-- The base58 spelling of `pkZ`. -/
def strZ : Str := List.replicate 32 '1'

/-- The base58 spelling of `pkOne`. -/
def strOne : Str := List.replicate 31 '1' ++ ['2']

/-- A concrete associated-token-address derivation used when instantiating
theorems that hold for every derivation. -/
def ataZ : PK → PK → PK := fun _ _ => pkZ

/-- A builder whose instruction construction always fails, used to exercise
the handlers' error arms. -/
def failBuild : PK → PK → PK → PK → List PK → Nat → Except Unit Instr :=
  fun _ _ _ _ _ _ => .error ()

/-- A trivially correct signature scheme used to instantiate scheme-generic
theorems. -/
def S0 : SigScheme :=
  ⟨fun _ _ => List.replicate 64 0, fun _ => List.replicate 32 0,
   fun _ _ sg => sg == List.replicate 64 0⟩

/-! ### Response envelope invariant -/

/-- Exactly one of `data` and `error` is populated, matching the success flag. -/
def envOk (e : Envelope) : Prop :=
  (e.success = true ∧ e.data.isSome = true ∧ e.error = none) ∨
  (e.success = false ∧ e.error.isSome = true ∧ e.data = none)

/-- Envelope invariant for a handler result that may have panicked: every
body that is actually produced satisfies `envOk`. -/
def hresOk : HResult → Prop
  | .ok _ b => envOk b
  | .fault => True

theorem envOk_err (m : Str) : envOk (errEnv m) := Or.inr ⟨rfl, rfl, rfl⟩

theorem envOk_ok (d : DataVal) : envOk (okEnv d) := Or.inl ⟨rfl, rfl, rfl⟩

/-! ### Success-path characterizations of the handlers -/

theorem mint_to_spec (mPk acct aPk : PK) (amt : Nat) :
    mint_to tokenProgramId mPk acct aPk [] amt =
      .ok ⟨tokenProgramId,
        [⟨mPk, false, true⟩, ⟨acct, false, true⟩, ⟨aPk, true, false⟩],
        7 :: leBytes 8 amt⟩ := by
  simp [mint_to, check_program_account]

theorem transfer_token_spec (src dst oPk : PK) (amt : Nat) :
    transfer_token tokenProgramId src dst oPk [] amt =
      .ok ⟨tokenProgramId,
        [⟨src, false, true⟩, ⟨dst, false, true⟩, ⟨oPk, true, false⟩],
        3 :: leBytes 8 amt⟩ := by
  simp [transfer_token, check_program_account]

theorem initialize_mint_spec (mPk aPk : PK) (d : Nat) :
    initialize_mint tokenProgramId mPk aPk (some aPk) d =
      .ok ⟨tokenProgramId,
        [⟨mPk, false, true⟩, ⟨rentSysvarId, false, false⟩],
        0 :: d :: (aPk ++ 1 :: aPk)⟩ := by
  simp [initialize_mint, check_program_account]

theorem token_create_spec (a m : Str) (d : Nat) (mPk aPk : PK)
    (hm : pubkeyFromStr m = some mPk) (ha : pubkeyFromStr a = some aPk) :
    token_create ⟨some a, some m, d⟩ =
      (200, okEnv (.token (encode58 tokenProgramId)
        [⟨encode58 mPk, false, true⟩, ⟨encode58 rentSysvarId, false, false⟩]
        (encode58 (0 :: d :: (aPk ++ 1 :: aPk))))) := by
  simp [token_create, token_createWith, hm, ha, initialize_mint_spec]

theorem token_mint_spec (ata : PK → PK → PK) (m dst a : Str) (amt : Nat)
    (mPk dPk aPk : PK)
    (hm : pubkeyFromStr m = some mPk) (hd : pubkeyFromStr dst = some dPk)
    (ha : pubkeyFromStr a = some aPk) :
    token_mint ata ⟨some m, some dst, some a, some amt⟩ =
      (200, okEnv (.token (encode58 tokenProgramId)
        [⟨encode58 mPk, false, true⟩, ⟨encode58 (ata dPk mPk), false, true⟩,
         ⟨encode58 aPk, true, false⟩]
        (encode58 (7 :: leBytes 8 amt)))) := by
  simp [token_mint, token_mintWith, hm, hd, ha, mint_to_spec]

theorem send_sol_spec (f t : Str) (l : Nat) (fPk tPk : PK) (hl : l ≠ 0)
    (hf : pubkeyFromStr f = some fPk) (ht : pubkeyFromStr t = some tPk) :
    send_sol ⟨f, t, l⟩ =
      (200, okEnv (.solData (encode58 systemProgramId) [encode58 fPk, encode58 tPk]
        (encode58 (leBytes 4 2 ++ leBytes 8 l)))) := by
  simp [send_sol, hl, hf, ht, transfer]

theorem send_token_spec (ata : PK → PK → PK) (dst m o : Str) (amt : Nat)
    (dPk mPk oPk : PK)
    (hd : pubkeyFromStr dst = some dPk) (hm : pubkeyFromStr m = some mPk)
    (ho : pubkeyFromStr o = some oPk) :
    send_token ata ⟨some dst, some m, some o, some amt⟩ =
      (200, okEnv (.sendTokenData (encode58 tokenProgramId)
        [⟨encode58 oPk, false⟩, ⟨encode58 (ata dPk mPk), false⟩,
         ⟨encode58 oPk, false⟩]
        (encode58 (3 :: leBytes 8 amt)))) := by
  simp [send_token, send_tokenWith, hd, hm, ho, transfer_token_spec]

/-- Account address list of a /send/token response body. -/
def respTokenAccounts (r : Nat × Envelope) : Option (List Str) :=
  match r.2.data with
  | some (.sendTokenData _ accs _) => some (accs.map (fun a => a.pubkey))
  | _ => none

/-- Encoded account address list of a built instruction. -/
def ixAccountsEnc (r : Except Unit Instr) : Option (List Str) :=
  match r with
  | .ok ix => some (ix.accounts.map (fun a => encode58 a.pubkey))
  | .error _ => none

/-! ### The claims -/

/-- C1: the claim fails on the code.  For the request
`{message: "m", signature: "1", pubkey: "0"}` — whose pubkey is a non-empty
string that does not decode to a valid 32-byte public key — the handler
reaches `Pubkey::from_str(&pubkey).unwrap()` and terminates in an unhandled
panic instead of returning a 400-class error envelope. -/
theorem c1_verify_msg_faults_on_malformed_pubkey :
    verify_msg S0 ⟨['m'], ['1'], ['0']⟩ = .fault := by decide

/-- C2: the claim fails on the code.  When the delegated instruction builder
fails on a well-formed /token/mint request, the handler returns the error
envelope with HTTP status 200, not a 400-class status (the `Err` arm of
`token_mint` uses `StatusCode::OK`). -/
theorem c2_token_mint_construction_failure_returns_200 :
    token_mintWith failBuild ataZ ⟨some strZ, some strZ, some strZ, some 1⟩ =
      (200, errEnv msgFailedMintIx) := by decide

/-- C3 counterexample: on a valid /send/token request the account list of the
response differs from the (encoded) ordered account list of the instruction
constructed by the SDK — the handler substitutes the hand-built list
`[owner, destination token account, owner]` for the instruction's
`[sender token account, destination token account, owner]`. -/
theorem c3_counterexample :
    respTokenAccounts (send_token ataZ ⟨some strZ, some strZ, some strOne, some 1⟩) =
      some [encode58 pkOne, encode58 pkZ, encode58 pkOne] ∧
    ixAccountsEnc (transfer_token tokenProgramId (ataZ pkOne pkZ) (ataZ pkZ pkZ)
        pkOne [] 1) =
      some [encode58 pkZ, encode58 pkZ, encode58 pkOne] ∧
    respTokenAccounts (send_token ataZ ⟨some strZ, some strZ, some strOne, some 1⟩) ≠
      ixAccountsEnc (transfer_token tokenProgramId (ataZ pkOne pkZ) (ataZ pkZ pkZ)
        pkOne [] 1) := by
  refine ⟨by decide, by decide, by decide⟩

/-- C3 amended: /token/create and /token/mint mirror the built instruction's
ordered account list, each entry carrying address, is-signer flag and
is-writable flag; /send/sol returns only the two account addresses in order,
with no flags; and /send/token returns the fixed three-entry list
`[owner, destination token account, owner]`, each entry carrying only an
`isSigner` flag that is always false, instead of the instruction's accounts. -/
theorem c3_response_account_shapes (ata : PK → PK → PK) (a m dst o f t : Str)
    (d amt l : Nat) (mPk aPk dPk oPk fPk tPk : PK)
    (hm : pubkeyFromStr m = some mPk) (ha : pubkeyFromStr a = some aPk)
    (hd : pubkeyFromStr dst = some dPk) (ho : pubkeyFromStr o = some oPk)
    (hf : pubkeyFromStr f = some fPk) (ht : pubkeyFromStr t = some tPk)
    (hl : l ≠ 0) :
    token_create ⟨some a, some m, d⟩ =
      (200, okEnv (.token (encode58 tokenProgramId)
        [⟨encode58 mPk, false, true⟩, ⟨encode58 rentSysvarId, false, false⟩]
        (encode58 (0 :: d :: (aPk ++ 1 :: aPk))))) ∧
    token_mint ata ⟨some m, some dst, some a, some amt⟩ =
      (200, okEnv (.token (encode58 tokenProgramId)
        [⟨encode58 mPk, false, true⟩, ⟨encode58 (ata dPk mPk), false, true⟩,
         ⟨encode58 aPk, true, false⟩]
        (encode58 (7 :: leBytes 8 amt)))) ∧
    send_sol ⟨f, t, l⟩ =
      (200, okEnv (.solData (encode58 systemProgramId) [encode58 fPk, encode58 tPk]
        (encode58 (leBytes 4 2 ++ leBytes 8 l)))) ∧
    send_token ata ⟨some dst, some m, some o, some amt⟩ =
      (200, okEnv (.sendTokenData (encode58 tokenProgramId)
        [⟨encode58 oPk, false⟩, ⟨encode58 (ata dPk mPk), false⟩,
         ⟨encode58 oPk, false⟩]
        (encode58 (3 :: leBytes 8 amt)))) :=
  ⟨token_create_spec a m d mPk aPk hm ha,
   token_mint_spec ata m dst a amt mPk dPk aPk hm hd ha,
   send_sol_spec f t l fPk tPk hl hf ht,
   send_token_spec ata dst m o amt dPk mPk oPk hd hm ho⟩

/-- C3 amended, witness at concrete inputs. -/
theorem c3_response_account_shapes_witness :
    (token_create ⟨some strZ, some strZ, 6⟩).1 = 200 ∧
    (send_token ataZ ⟨some strOne, some strZ, some strZ, some 2⟩).1 = 200 := by
  have h := c3_response_account_shapes ataZ strZ strZ strOne strZ strZ strZ 6 2 5
    pkZ pkZ pkOne pkZ pkZ pkZ (by decide) (by decide) (by decide) (by decide)
    (by decide) (by decide) (by decide)
  exact ⟨by rw [h.1], by rw [h.2.2.2]⟩

/-- C4 counterexample: a /token/create request whose `mint` field is present
but empty is not answered with the missing-field message; the empty string
falls through to address decoding and yields the malformed-address error. -/
theorem c4_counterexample :
    token_create ⟨some ['x'], some [], 0⟩ = (400, errEnv msgInvalidMint) ∧
    msgInvalidMint ≠ msgMissingCreate := by
  refine ⟨by decide, by decide⟩

/-- C4 amended: only /message/sign and /message/verify reject empty required
string fields with the MissingField-style error.  /token/create, /token/mint,
/send/sol and /send/token perform no emptiness check for any of their
required string fields: whichever required address field is present but
empty, the request flows into base58 decoding and is answered with that
field's own 400-class malformed-address error (fields parsed earlier in the
handler must parse for a later field's error to be reached; `u` and `v`
stand for arbitrary such parsing strings). -/
theorem c4_empty_field_behavior (S : SigScheme) (ata : PK → PK → PK)
    (m s sg pk a dst mi o t u v : Str) (d amt : Nat) (uPk vPk : PK)
    (hu : pubkeyFromStr u = some uPk) (hv : pubkeyFromStr v = some vPk) :
    ((m = [] ∨ s = []) → sign_msg S ⟨m, s⟩ = (400, errEnv msgMissingFields)) ∧
    ((m = [] ∨ sg = [] ∨ pk = []) →
      verify_msg S ⟨m, sg, pk⟩ = .ok 400 (errEnv msgMissingFields)) ∧
    token_create ⟨some a, some [], d⟩ = (400, errEnv msgInvalidMint) ∧
    token_create ⟨some [], some u, d⟩ = (400, errEnv msgInvalidMintAuthority) ∧
    token_mint ata ⟨some [], some dst, some mi, some amt⟩ =
      (400, errEnv msgInvalidMint) ∧
    token_mint ata ⟨some u, some [], some mi, some amt⟩ =
      (400, errEnv msgInvalidDestination) ∧
    token_mint ata ⟨some u, some v, some [], some amt⟩ =
      (400, errEnv msgInvalidAuthority) ∧
    send_sol ⟨[], t, amt + 1⟩ = (400, errEnv msgInvalidSender) ∧
    send_sol ⟨u, [], amt + 1⟩ = (400, errEnv msgInvalidTo) ∧
    send_token ata ⟨some [], some mi, some o, some amt⟩ =
      (400, errEnv msgInvalidDestination) ∧
    send_token ata ⟨some u, some [], some o, some amt⟩ =
      (400, errEnv msgInvalidMint) ∧
    send_token ata ⟨some u, some v, some [], some amt⟩ =
      (400, errEnv msgInvalidOwner) := by
  refine ⟨?_, ?_, rfl, ?_, rfl, ?_, ?_, rfl, ?_, rfl, ?_, ?_⟩
  · intro h
    simp only [sign_msg]
    rw [if_pos h]
  · intro h
    simp only [verify_msg]
    rw [if_pos h]
  · simp [token_create, token_createWith, hu, pubkeyFromStr_nil]
  · simp [token_mint, token_mintWith, hu, pubkeyFromStr_nil]
  · simp [token_mint, token_mintWith, hu, hv, pubkeyFromStr_nil]
  · simp [send_sol, hu, pubkeyFromStr_nil]
  · simp [send_token, send_tokenWith, hu, pubkeyFromStr_nil]
  · simp [send_token, send_tokenWith, hu, hv, pubkeyFromStr_nil]

/-- C4 amended, witness at concrete inputs. -/
theorem c4_empty_field_behavior_witness :
    sign_msg S0 ⟨[], ['s']⟩ = (400, errEnv msgMissingFields) ∧
    verify_msg S0 ⟨[], ['g'], ['p']⟩ = .ok 400 (errEnv msgMissingFields) ∧
    token_create ⟨some [], some strZ, 0⟩ = (400, errEnv msgInvalidMintAuthority) ∧
    token_mint ataZ ⟨some strZ, some strOne, some [], some 0⟩ =
      (400, errEnv msgInvalidAuthority) ∧
    send_sol ⟨strZ, [], 1⟩ = (400, errEnv msgInvalidTo) ∧
    send_token ataZ ⟨some strZ, some strOne, some [], some 0⟩ =
      (400, errEnv msgInvalidOwner) := by
  have h := c4_empty_field_behavior S0 ataZ [] ['s'] ['g'] ['p'] ['x'] ['x'] ['x']
    ['x'] ['x'] strZ strOne 0 0 pkZ pkOne (by decide) (by decide)
  exact ⟨h.1 (Or.inl rfl), h.2.1 (Or.inl rfl), h.2.2.2.1, h.2.2.2.2.2.2.1,
    h.2.2.2.2.2.2.2.2.1, h.2.2.2.2.2.2.2.2.2.2.2⟩

/-- C5: for every request to every JSON endpoint (over any builder, any
associated-token-address derivation and any signature scheme), every response
body a handler produces carries the success flag together with exactly one of
the data object (success) or the error message (failure). -/
theorem c5_envelope_exactly_one (pk kp : List Nat)
    (B5 : PK → PK → PK → Option PK → Nat → Except Unit Instr)
    (B6 B7 : PK → PK → PK → PK → List PK → Nat → Except Unit Instr)
    (ata ata' : PK → PK → PK) (S S' : SigScheme)
    (p1 : CreateTokenRequest) (p2 : TokenMintRequest) (p3 : SignMsgRequest)
    (p4 : VerifyMsgRequest) (p5 : SendSOLRequest) (p6 : SendTokenRequest) :
    envOk (generate_keypair pk kp).2 ∧
    envOk (token_createWith B5 p1).2 ∧
    envOk (token_mintWith B6 ata p2).2 ∧
    envOk (sign_msg S p3).2 ∧
    hresOk (verify_msg S' p4) ∧
    envOk (send_sol p5).2 ∧
    envOk (send_tokenWith B7 ata' p6).2 := by
  refine ⟨?_, ?_, ?_, ?_, ?_, ?_, ?_⟩
  · simp only [generate_keypair]
    split
    · exact envOk_err _
    · exact envOk_ok _
  · simp only [token_createWith]
    repeat' split
    all_goals first | exact envOk_err _ | exact envOk_ok _
  · simp only [token_mintWith]
    repeat' split
    all_goals first | exact envOk_err _ | exact envOk_ok _
  · simp only [sign_msg]
    repeat' split
    all_goals first | exact envOk_err _ | exact envOk_ok _
  · simp only [verify_msg]
    repeat' split
    all_goals first | exact envOk_err _ | exact envOk_ok _ | trivial
  · simp only [send_sol]
    repeat' split
    all_goals first | exact envOk_err _ | exact envOk_ok _
  · simp only [send_tokenWith]
    repeat' split
    all_goals first | exact envOk_err _ | exact envOk_ok _

/-- C6: a /send/sol request with `lamports = 0` is answered with the 400-class
zero-amount validation error for all `from` and `to` strings whatsoever (the
check precedes any address parsing, so address validity is irrelevant). -/
theorem c6_send_sol_zero_lamports (f t : Str) :
    send_sol ⟨f, t, 0⟩ = (400, errEnv msgAmountGt0) := rfl

/-- C7: a /token/create request whose `mint` is a non-empty string that does
not base58-decode to exactly 32 bytes is answered with the 400-class
malformed-mint error (so never with the construction-failure error), for any
`mintAuthority` string and any decimals. -/
theorem c7_token_create_malformed_mint (a m : Str) (d : Nat) (hm : m ≠ [])
    (hdec : ∀ bs, decode58 m = some bs → bs.length ≠ 32) :
    token_create ⟨some a, some m, d⟩ = (400, errEnv msgInvalidMint) := by
  have hnone : pubkeyFromStr m = none := by
    rw [pubkeyFromStr]
    by_cases hlen : 44 < (strBytes m).length
    · rw [if_pos hlen]
    · rw [if_neg hlen]
      cases hdm : decode58 m with
      | none => rfl
      | some bs => simp [hdec bs hdm]
  simp [token_create, token_createWith, hnone]

/-- C7 witness at a concrete input. -/
theorem c7_token_create_malformed_mint_witness :
    token_create ⟨some ['x'], some ['0'], 3⟩ = (400, errEnv msgInvalidMint) := by
  refine c7_token_create_malformed_mint ['x'] ['0'] 3 (by decide) ?_
  intro bs h
  rw [show decode58 ['0'] = none from by decide] at h
  exact Option.noConfusion h

/-- C8: /token/mint is deterministic in the request tuple — two requests with
the same (mint, destination, authority, amount) fields produce identical
responses, and the instruction payload is exactly the base58 encoding of the
`MintTo` packing, tag 7 followed by the little-endian amount. -/
theorem c8_token_mint_deterministic (ata : PK → PK → PK) (m dst a : Str)
    (amt : Nat) (mPk dPk aPk : PK) (r₁ r₂ : TokenMintRequest)
    (h₁ : r₁ = ⟨some m, some dst, some a, some amt⟩)
    (h₂ : r₂ = ⟨some m, some dst, some a, some amt⟩)
    (hm : pubkeyFromStr m = some mPk) (hd : pubkeyFromStr dst = some dPk)
    (ha : pubkeyFromStr a = some aPk) :
    token_mint ata r₁ = token_mint ata r₂ ∧
    token_mint ata r₁ = (200, okEnv (.token (encode58 tokenProgramId)
      [⟨encode58 mPk, false, true⟩, ⟨encode58 (ata dPk mPk), false, true⟩,
       ⟨encode58 aPk, true, false⟩]
      (encode58 (7 :: leBytes 8 amt)))) := by
  subst h₁
  subst h₂
  exact ⟨rfl, token_mint_spec ata m dst a amt mPk dPk aPk hm hd ha⟩

/-- C8 witness at a concrete input. -/
theorem c8_token_mint_deterministic_witness :
    (token_mint ataZ ⟨some strZ, some strZ, some strZ, some 5⟩).1 = 200 := by
  have h := c8_token_mint_deterministic ataZ strZ strZ strZ 5 pkZ pkZ pkZ _ _
    rfl rfl (by decide) (by decide) (by decide)
  rw [h.2]

/-- C9: sign-then-verify round trip.  For every signature scheme that is
correct for the derived keypair (verification accepts the scheme's own
signature), every 64-byte keypair and every non-empty message, signing via
/message/sign and then verifying the returned signature against the same
message and the returned public key succeeds with `valid = true`. -/
theorem c9_sign_then_verify (S : SigScheme) (kp : List Nat) (msg : Str)
    (hmsg : msg ≠ [])
    (hkplen : kp.length = 64) (hkpbytes : ∀ x ∈ kp, x < 256)
    (hsiglen : (S.sign (kp.take 32) (strBytes msg)).length = 64)
    (hsigbytes : ∀ x ∈ S.sign (kp.take 32) (strBytes msg), x < 256)
    (hpublen : (S.pub (kp.take 32)).length = 32)
    (hpubbytes : ∀ x ∈ S.pub (kp.take 32), x < 256)
    (hcorrect : S.verify (S.pub (kp.take 32)) (strBytes msg)
      (S.sign (kp.take 32) (strBytes msg)) = true) :
    sign_msg S ⟨msg, encode58 kp⟩ =
      (200, okEnv (.signResult (encode58 (S.sign (kp.take 32) (strBytes msg)))
        (encode58 (S.pub (kp.take 32))) msg)) ∧
    verify_msg S ⟨msg, encode58 (S.sign (kp.take 32) (strBytes msg)),
        encode58 (S.pub (kp.take 32))⟩ =
      .ok 200 (okEnv (.verifyResult true (encode58 (S.pub (kp.take 32))) msg)) := by
  have hkpne : kp ≠ [] := by
    intro hc
    rw [hc] at hkplen
    simp at hkplen
  have hsigne : S.sign (kp.take 32) (strBytes msg) ≠ [] := by
    intro hc
    rw [hc] at hsiglen
    simp at hsiglen
  have hpubne : S.pub (kp.take 32) ≠ [] := by
    intro hc
    rw [hc] at hpublen
    simp at hpublen
  constructor
  · have hguard : ¬ (msg = [] ∨ encode58 kp = []) := by
      rintro (h | h)
      · exact hmsg h
      · exact encode58_ne_nil hkpbytes hkpne h
    have hkfs : keypair_from_seed kp = some (kp.take 32) := by
      rw [keypair_from_seed, if_neg (by omega)]
    simp only [sign_msg]
    rw [if_neg hguard]
    simp only [decode58_encode58 hkpbytes, hkfs]
  · have hguard : ¬ (msg = [] ∨ encode58 (S.sign (kp.take 32) (strBytes msg)) = [] ∨
        encode58 (S.pub (kp.take 32)) = []) := by
      rintro (h | h | h)
      · exact hmsg h
      · exact encode58_ne_nil hsigbytes hsigne h
      · exact encode58_ne_nil hpubbytes hpubne h
    simp only [verify_msg]
    rw [if_neg hguard]
    simp only [pubkeyFromStr_encode58 hpubbytes hpublen,
      decode58_encode58 hsigbytes, hsiglen, hcorrect]
    simp

/-- C9 witness: the round trip at a concrete scheme, keypair and message. -/
theorem c9_sign_then_verify_witness :
    sign_msg S0 ⟨['a'], encode58 (List.replicate 64 0)⟩ =
      (200, okEnv (.signResult
        (encode58 (S0.sign ((List.replicate 64 0).take 32) (strBytes ['a'])))
        (encode58 (S0.pub ((List.replicate 64 0).take 32))) ['a'])) ∧
    verify_msg S0 ⟨['a'],
        encode58 (S0.sign ((List.replicate 64 0).take 32) (strBytes ['a'])),
        encode58 (S0.pub ((List.replicate 64 0).take 32))⟩ =
      .ok 200 (okEnv (.verifyResult true
        (encode58 (S0.pub ((List.replicate 64 0).take 32))) ['a'])) :=
  c9_sign_then_verify S0 (List.replicate 64 0) ['a'] (by decide) (by decide)
    (by decide) (by decide) (by decide) (by decide) (by decide) (by decide)

/-- C10: on a valid request, the /token/mint handler delegates to its builder
with the associated token address derived from (destination, mint) in the
destination-token-account slot — for every builder, so the handler never
passes the raw destination there — and likewise the /send/token handler
delegates with the addresses derived from (owner, mint) and
(destination, mint) as the source and destination token accounts.  With the
concrete SDK builders the resulting instructions carry exactly those derived
accounts, so whenever the derivation does not collide with the raw
destination key, that key appears in no token-account slot. -/
theorem c10_token_accounts_are_atas (ata : PK → PK → PK) (m dst a o : Str)
    (amt : Nat) (mPk dPk aPk oPk : PK)
    (hm : pubkeyFromStr m = some mPk) (hd : pubkeyFromStr dst = some dPk)
    (ha : pubkeyFromStr a = some aPk) (ho : pubkeyFromStr o = some oPk)
    (h1 : ata dPk mPk ≠ dPk) (h2 : ata oPk mPk ≠ dPk) :
    (∀ build, token_mintWith build ata ⟨some m, some dst, some a, some amt⟩ =
      match build tokenProgramId mPk (ata dPk mPk) aPk [] amt with
      | .ok ix => (200, okEnv (.token (encode58 tokenProgramId)
          (ix.accounts.map fun x => ⟨encode58 x.pubkey, x.is_signer, x.is_writable⟩)
          (encode58 ix.data)))
      | .error _ => (200, errEnv msgFailedMintIx)) ∧
    (∀ build, send_tokenWith build ata ⟨some dst, some m, some o, some amt⟩ =
      match build tokenProgramId (ata oPk mPk) (ata dPk mPk) oPk [] amt with
      | .ok ix => (200, okEnv (.sendTokenData (encode58 ix.program_id)
          [⟨encode58 oPk, false⟩, ⟨encode58 (ata dPk mPk), false⟩,
           ⟨encode58 oPk, false⟩]
          (encode58 ix.data)))
      | .error _ => (400, errEnv msgFailedTransferIx)) ∧
    mint_to tokenProgramId mPk (ata dPk mPk) aPk [] amt =
      .ok ⟨tokenProgramId,
        [⟨mPk, false, true⟩, ⟨ata dPk mPk, false, true⟩, ⟨aPk, true, false⟩],
        7 :: leBytes 8 amt⟩ ∧
    transfer_token tokenProgramId (ata oPk mPk) (ata dPk mPk) oPk [] amt =
      .ok ⟨tokenProgramId,
        [⟨ata oPk mPk, false, true⟩, ⟨ata dPk mPk, false, true⟩,
         ⟨oPk, true, false⟩],
        3 :: leBytes 8 amt⟩ ∧
    ata dPk mPk ≠ dPk ∧ ata oPk mPk ≠ dPk := by
  refine ⟨?_, ?_, mint_to_spec mPk (ata dPk mPk) aPk amt,
    transfer_token_spec (ata oPk mPk) (ata dPk mPk) oPk amt, h1, h2⟩
  · intro build
    simp [token_mintWith, hm, hd, ha]
  · intro build
    simp [send_tokenWith, hd, hm, ho]

/-- C10 witness at a concrete input: the delegation characterization applied
to a failing builder on the mint side and to the concrete SDK builder on the
transfer side. -/
theorem c10_token_accounts_are_atas_witness :
    token_mintWith failBuild ataZ ⟨some strZ, some strOne, some strZ, some 3⟩ =
      (200, errEnv msgFailedMintIx) ∧
    (send_token ataZ ⟨some strOne, some strZ, some strZ, some 3⟩).1 = 200 := by
  have h := c10_token_accounts_are_atas ataZ strZ strOne strZ strZ 3 pkZ pkOne
    pkZ pkZ (by decide) (by decide) (by decide) (by decide) (by decide) (by decide)
  refine ⟨?_, ?_⟩
  · rw [h.1 failBuild]
    rfl
  · have h2 := h.2.1 transfer_token
    rw [show send_token ataZ ⟨some strOne, some strZ, some strZ, some 3⟩ =
      send_tokenWith transfer_token ataZ ⟨some strOne, some strZ, some strZ, some 3⟩
      from rfl]
    rw [h2, transfer_token_spec]

end SolSvc
